import Mathlib

/-
Verification of the simulation core of the hexensemble/space-shooter game
(src/main.rs).  Machine floats (f32) are modelled as exact rationals, the u32
counters as natural numbers, and the file system slot "highscore.dat" as an
Option String.  The per-frame random draws produced by macroquad
rand::gen_range are supplied as inputs, constrained by the documented
gen_range contract (a value in the half-open range from low to high for the
integer instances; for the float instances the upper endpoint is also allowed
because the final f32 rounding step can land on it, so the closed interval is
the sound contract).  Screen width and height are fixed parameters of a run.
-/

namespace Game

/-- Axis-aligned rectangle, after the macroquad Rect type (fields x, y, w, h). -/
structure Rect where
  x : ℚ
  y : ℚ
  w : ℚ
  h : ℚ
deriving DecidableEq

/-- Overlap test of macroquad Rect.overlaps: left <= other.right, right >= other.left,
top <= other.bottom, bottom >= other.top, where left = x, right = x + w,
top = y, bottom = y + h.  Touching edges count as overlap. -/
def Rect.overlaps (a b : Rect) : Bool :=
  decide (a.x ≤ b.x + b.w) && decide (b.x ≤ a.x + a.w) &&
  decide (a.y ≤ b.y + b.h) && decide (b.y ≤ a.y + a.h)

/-- The Shape struct of src/main.rs lines 627-633: size, speed, x, y, collided. -/
structure Shape where
  size : ℚ
  speed : ℚ
  x : ℚ
  y : ℚ
  collided : Bool
deriving DecidableEq

/-- Shape::rect (src/main.rs lines 640-647): square box of side size centered at (x, y). -/
def Shape.rect (s : Shape) : Rect :=
  ⟨s.x - s.size / 2, s.y - s.size / 2, s.size, s.size⟩

/-- Shape::collides_with (src/main.rs lines 636-638). -/
def Shape.collides_with (a b : Shape) : Bool :=
  a.rect.overlaps b.rect

/-- macroquad clamp: min if below, max if above, else the value itself. -/
def clamp (value lo hi : ℚ) : ℚ :=
  if value < lo then lo else if hi < value then hi else value

/-- Models `q.round() as u32` for an f32 value q.  f32::round rounds half away
from zero, which agrees with Mathlib round (half up) on nonnegative values;
the `as u32` cast saturates negatives to 0, which Int.toNat also does, and both
half conventions land on 0 for negative halves, so the two agree everywhere. -/
def qRound (q : ℚ) : ℕ :=
  (round q).toNat

/-- A pushed explosion record (src/main.rs lines 333-340): the emitting flag of
the one-shot EmitterConfig (true at creation, owned by the renderer afterwards),
the particle amount round(size) * 4, and the enemy position it was spawned at. -/
structure Explosion where
  emitting : Bool
  amount : ℕ
  x : ℚ
  y : ℚ
deriving DecidableEq

/-- The mutable counters threaded through the bullet collision loop:
score, level, high_score and the explosions vector. -/
structure Counters where
  score : ℕ
  level : ℕ
  hs : ℕ
  explosions : List Explosion
deriving DecidableEq

/-- Body of the bullet-enemy hit (src/main.rs lines 322-342):
score += enemy.size.round() as u32; new_level = score / 1000 + 1, adopted only
if greater; high_score = high_score.max(score); push a one-shot explosion with
amount round(size) * 4 at the enemy position. -/
def hitCounters (e : Shape) (c : Counters) : Counters :=
  let score := c.score + qRound e.size
  let newLevel := score / 1000 + 1
  let level := if newLevel > c.level then newLevel else c.level
  let hs := max c.hs score
  ⟨score, level, hs, c.explosions ++ [⟨true, qRound e.size * 4, e.x, e.y⟩]⟩

/-- Inner loop of the collision resolver (src/main.rs lines 320-344): one enemy
scanned against every bullet in order; on overlap both are marked collided and
the counters are updated.  There is no guard on already-marked entities, so one
enemy can be hit by several bullets in the same pass. -/
def bulletScan : Shape → List Shape → Counters → Shape × List Shape × Counters
  | e, [], c => (e, [], c)
  | e, b :: bs, c =>
    if b.collides_with e then
      let r := bulletScan {e with collided := true} bs (hitCounters e c)
      (r.1, {b with collided := true} :: r.2.1, r.2.2)
    else
      let r := bulletScan e bs c
      (r.1, b :: r.2.1, r.2.2)

/-- Outer loop of the collision resolver (src/main.rs lines 319-345): every
enemy in order, each against the current bullet list. -/
def enemyScan : List Shape → List Shape → Counters → List Shape × List Shape × Counters
  | [], bs, c => ([], bs, c)
  | e :: es, bs, c =>
    let r := bulletScan e bs c
    let r2 := enemyScan es r.2.1 r.2.2
    (r.1 :: r2.1, r2.2.1, r2.2.2)

/-- The GameState enum of src/main.rs lines 619-624. -/
inductive GameState where
  | MainMenu
  | Playing
  | Paused
  | GameOver
deriving DecidableEq

/-- The whole mutable state of the game loop: game_state, the three entity
vectors, the player, direction_modifier, score, level, high_score, plus a log
of the values persisted by fs::write (writes) and the process-exit flag of the
Quit button. -/
structure GState where
  gs : GameState
  enemies : List Shape
  bullets : List Shape
  explosions : List Explosion
  player : Shape
  dirMod : ℚ
  score : ℕ
  level : ℕ
  highScore : ℕ
  writes : List ℕ
  exited : Bool
deriving DecidableEq

/-- One frame of input: the frame time dt, the held movement keys (up = W or K,
left = A or H, down = S or J, right = D or L), the pressed-this-frame edges of
Space and Escape, the two menu buttons, and the values produced by the four
rand::gen_range calls of the spawner (drawn only when used). -/
structure Input where
  dt : ℚ
  up : Bool
  left : Bool
  down : Bool
  right : Bool
  space : Bool
  esc : Bool
  playClicked : Bool
  quitClicked : Bool
  spawnDraw : ℕ
  sizeDraw : ℚ
  speedDraw : ℚ
  xDraw : ℚ
deriving DecidableEq

/-- The enemy pushed by the spawner (src/main.rs lines 283-289):
size and speed and x from the draws, y = -size, collided = false. -/
def spawnedEnemy (i : Input) : Shape :=
  ⟨i.sizeDraw, i.speedDraw, i.xDraw, -i.sizeDraw, false⟩

/-- Random enemy generation (src/main.rs lines 277-290): one enemy is appended
exactly when the gen_range(0, 99) draw is at least 95. -/
def spawnEnemies (s : GState) (i : Input) : List Shape :=
  if 95 ≤ i.spawnDraw then s.enemies ++ [spawnedEnemy i] else s.enemies

/-- Enemy movement (src/main.rs lines 293-295): y increases by speed * dt. -/
def moveEnemy (dt : ℚ) (e : Shape) : Shape :=
  {e with y := e.y + e.speed * dt}

/-- Bullet movement (src/main.rs lines 296-298): y decreases by speed * dt. -/
def moveBullet (dt : ℚ) (b : Shape) : Shape :=
  {b with y := b.y - b.speed * dt}

/-- Enemy pruning (src/main.rs lines 308 and 312): keep enemies with
y < screen_height + size, then keep the not-collided ones. -/
def pruneEnemies (H : ℚ) (es : List Shape) : List Shape :=
  (es.filter (fun e => decide (e.y < H + e.size))).filter (fun e => !e.collided)

/-- Bullet pruning (src/main.rs lines 309 and 313): keep bullets with
y > 0 - size / 2, then keep the not-collided ones. -/
def pruneBullets (bs : List Shape) : List Shape :=
  (bs.filter (fun b => decide (0 - b.size / 2 < b.y))).filter (fun b => !b.collided)

/-- Key handling for the player (src/main.rs lines 243-258), before clamping:
each held direction moves the player by MOVEMENT_SPEED (200) times dt. -/
def movedPlayer (s : GState) (i : Input) : Shape :=
  let p := s.player
  let p := if i.up then {p with y := p.y - 200 * i.dt} else p
  let p := if i.left then {p with x := p.x - 200 * i.dt} else p
  let p := if i.down then {p with y := p.y + 200 * i.dt} else p
  let p := if i.right then {p with x := p.x + 200 * i.dt} else p
  p

/-- direction_modifier updates (src/main.rs lines 248 and 256). -/
def newDirMod (s : GState) (i : Input) : ℚ :=
  let d := if i.left then s.dirMod - 5 * i.dt else s.dirMod
  if i.right then d + 5 * i.dt else d

/-- Firing (src/main.rs lines 259-268): on a Space edge push one bullet of size
32 and speed player.speed * 2 at the (not yet clamped) player position, 24 above. -/
def firedBullets (bs : List Shape) (p : Shape) (i : Input) : List Shape :=
  if i.space then bs ++ [⟨32, p.speed * 2, p.x, p.y - 24, false⟩] else bs

/-- Clamping of the player into the screen (src/main.rs lines 274-275). -/
def clampPlayer (W H : ℚ) (p : Shape) : Shape :=
  {p with x := clamp p.x 0 W, y := clamp p.y 0 H}

/-- The collision resolver invocation of a Playing frame: spawning, then enemy
and bullet movement, then pruning, feed the resolver (src/main.rs 277-345). -/
def scanOf (H : ℚ) (s : GState) (i : Input) : List Shape × List Shape × Counters :=
  enemyScan
    (pruneEnemies H ((spawnEnemies s i).map (moveEnemy i.dt)))
    (pruneBullets ((firedBullets s.bullets (movedPlayer s i) i).map (moveBullet i.dt)))
    ⟨s.score, s.level, s.highScore, s.explosions.filter (fun x => x.emitting)⟩

/-- Player collision check (src/main.rs line 348): any post-resolver enemy
overlapping the clamped player. -/
def hitOf (W H : ℚ) (s : GState) (i : Input) : Bool :=
  (scanOf H s i).1.any (fun e => (clampPlayer W H (movedPlayer s i)).collides_with e)

/-- One frame in GameState::Playing (src/main.rs lines 235-452), in source
order: key handling (movement, fire, Escape -> Paused), clamp the player,
random enemy generation, enemy and bullet movement, pruning (bounds, then
collided flags, then explosions no longer emitting), bullet collision
resolution, then the player collision check which persists high_score when
score == high_score and raises GameOver. -/
def playingFrame (W H : ℚ) (s : GState) (i : Input) : GState :=
  { s with
    gs := if hitOf W H s i then GameState.GameOver
          else if i.esc then GameState.Paused else GameState.Playing,
    enemies := (scanOf H s i).1,
    bullets := (scanOf H s i).2.1,
    explosions := (scanOf H s i).2.2.explosions,
    player := clampPlayer W H (movedPlayer s i),
    dirMod := newDirMod s i,
    score := (scanOf H s i).2.2.score,
    level := (scanOf H s i).2.2.level,
    highScore := (scanOf H s i).2.2.hs,
    writes := if hitOf W H s i then
                if (scanOf H s i).2.2.score = (scanOf H s i).2.2.hs
                then s.writes ++ [(scanOf H s i).2.2.hs] else s.writes
              else s.writes }

/-- One frame in GameState::MainMenu (src/main.rs lines 207-233): the Play
button clears the collections, recenters the player, resets score to 0 and
level to 1, and enters Playing; the Quit button exits the process. -/
def mainMenuFrame (W H : ℚ) (s : GState) (i : Input) : GState :=
  let s1 :=
    if i.playClicked then
      { s with
        enemies := [], bullets := [], explosions := [],
        player := {s.player with x := W / 2, y := H / 2},
        score := 0, level := 1, gs := GameState.Playing }
    else s
  if i.quitClicked then {s1 with exited := true} else s1

/-- One frame in GameState::Paused (src/main.rs lines 454-470): a Space edge
returns to Playing; everything else only draws text. -/
def pausedFrame (s : GState) (i : Input) : GState :=
  if i.space then {s with gs := GameState.Playing} else s

/-- One frame in GameState::GameOver (src/main.rs lines 472-488): a Space edge
returns to MainMenu; everything else only draws text. -/
def gameOverFrame (s : GState) (i : Input) : GState :=
  if i.space then {s with gs := GameState.MainMenu} else s

/-- The per-frame dispatch of the game loop (src/main.rs lines 206-489). -/
def step (W H : ℚ) (s : GState) (i : Input) : GState :=
  match s.gs with
  | GameState.MainMenu => mainMenuFrame W H s i
  | GameState.Playing => playingFrame W H s i
  | GameState.Paused => pausedFrame s i
  | GameState.GameOver => gameOverFrame s i

/-- Rust u32::from_str, used by str::parse::<u32> at src/main.rs line 77: an
optional leading plus sign, then one or more ASCII digits, value at most
u32::MAX; anything else is a parse error (None). -/
def parseU32 (s : String) : Option ℕ :=
  let cs := s.data
  let ds := match cs with
    | c :: rest => if c = '+' then rest else cs
    | [] => cs
  if ds.isEmpty then none
  else if ds.all (fun c => c.isDigit) then
    let v := ds.foldl (fun acc c => acc * 10 + (c.toNat - 48)) 0
    if v < 4294967296 then some v else none
  else none

/-- High score initialization (src/main.rs lines 76-78):
fs::read_to_string("highscore.dat").map_or(Ok(0), parse).unwrap_or(0).
The file slot is modelled as an Option String: None when the read fails. -/
def loadHighScore (slot : Option String) : ℕ :=
  match slot with
  | none => 0
  | some s => (parseU32 s).getD 0

/-- The state at the top of the game loop after startup (src/main.rs lines
40-81): MainMenu, empty collections, player of size 32 and speed 200 at the
screen center, direction_modifier 0, score 0, level 1, loaded high score. -/
def initState (W H : ℚ) (slot : Option String) : GState :=
  { gs := GameState.MainMenu, enemies := [], bullets := [], explosions := [],
    player := ⟨32, 200, W / 2, H / 2, false⟩, dirMod := 0,
    score := 0, level := 1, highScore := loadHighScore slot,
    writes := [], exited := false }

/-- The contract of the random draws carried by an Input, from the documented
macroquad gen_range behaviour: gen_range(0, 99) yields an integer in the
half-open range from 0 to 99, so at most 98; the f32 draws lie in the closed
interval between their two arguments (the final rounding to f32 can reach the
upper endpoint).  The speed bounds use the difficulty scalar level / 2 of
src/main.rs line 281 at the level current when the spawner runs.  dt is the
nonnegative frame time. -/
def InputValid (W : ℚ) (s : GState) (i : Input) : Prop :=
  0 ≤ i.dt ∧ i.spawnDraw ≤ 98 ∧
  16 ≤ i.sizeDraw ∧ i.sizeDraw ≤ 64 ∧
  50 * ((s.level : ℚ) / 2) ≤ i.speedDraw ∧ i.speedDraw ≤ 150 * ((s.level : ℚ) / 2) ∧
  i.sizeDraw / 2 ≤ i.xDraw ∧ i.xDraw ≤ W - i.sizeDraw / 2

instance (W : ℚ) (s : GState) (i : Input) : Decidable (InputValid W s i) := by
  unfold InputValid
  infer_instance

/-- Iterated frames of the game loop. -/
def runSteps (W H : ℚ) (s : GState) (l : List Input) : GState :=
  l.foldl (step W H) s

/-- Every input of a run satisfies the draw contract at the state it is fed to. -/
def validRun (W H : ℚ) : GState → List Input → Bool
  | _, [] => true
  | s, i :: is => decide (InputValid W s i) && validRun W H (step W H s i) is

/-- Modelled from the spec: an entity lies fully outside the legal visible
vertical band of the screen when its square bounding box is entirely above the
top or entirely below the bottom. -/
def fullyOutsideBand (H : ℚ) (e : Shape) : Prop :=
  e.y + e.size / 2 < 0 ∨ H < e.y - e.size / 2

instance (H : ℚ) (e : Shape) : Decidable (fullyOutsideBand H e) := by
  unfold fullyOutsideBand
  infer_instance

/-- States reachable from process start through frames with contract-valid inputs. -/
inductive Reachable (W H : ℚ) (slot : Option String) : GState → Prop where
  | init : Reachable W H slot (initState W H slot)
  | next : ∀ s i, Reachable W H slot s → InputValid W s i →
      Reachable W H slot (step W H s i)

/-- An input frame with no keys, no buttons, dt = 0 and contract-valid draws
for level 1. -/
def quietInput : Input :=
  ⟨0, false, false, false, false, false, false, false, false, 0, 32, 25, 400⟩

/-- quietInput with the Space edge set. -/
def fireInput : Input :=
  {quietInput with space := true}

/-- A spawning frame: dt = 1, spawn draw 95, size 32, speed 30, x 100. -/
def c3Input : Input :=
  {quietInput with dt := 1, spawnDraw := 95, speedDraw := 30, xDraw := 100}

/-- c3Input with spawn draw 99, which the gen_range contract excludes. -/
def draw99Input : Input :=
  {c3Input with spawnDraw := 99}

/-- c3Input with spawn draw 98, the largest value gen_range(0, 99) can yield. -/
def draw98Input : Input :=
  {c3Input with spawnDraw := 98}

/-- The initial state moved into Playing (as after clicking Play at 800x600). -/
def cPlaying : GState :=
  {initState 800 600 none with gs := GameState.Playing}

/-- A paused state. -/
def pausedState : GState :=
  {initState 800 600 none with gs := GameState.Paused}

/-- A game-over state. -/
def goState : GState :=
  {initState 800 600 none with gs := GameState.GameOver}

/-- A Playing state holding one enemy that sits fully below the 600-high screen
(top edge 610) yet inside the retention band (630 < 600 + 40). -/
def cE4state : GState :=
  {cPlaying with enemies := [⟨40, 1, 100, 630, false⟩]}

/-- Frame 1 of the two-session run: click Play. -/
def c1i1 : Input := {quietInput with playClicked := true}

/-- Frame 2: fire one bullet. -/
def c1i2 : Input := fireInput

/-- Frame 3: spawn an enemy above the bullet column. -/
def c1i3 : Input := {quietInput with spawnDraw := 95}

/-- Frame 4: let them meet (dt = 7/10). -/
def c1i4 : Input := {quietInput with dt := 7 / 10}

/-- Frame 5: a quiet frame that prunes the collided pair. -/
def c1i5 : Input := quietInput

/-- Frame 6: spawn an enemy that falls onto the player within the frame (dt = 14). -/
def c1i6 : Input := {quietInput with dt := 14, spawnDraw := 95}

/-- Frame 7: acknowledge the game over. -/
def c1i7 : Input := fireInput

/-- Frame 8: click Play again, starting a second session of the same process. -/
def c1i8 : Input := {quietInput with playClicked := true}

/-- Frame 9: an enemy falls onto the player again, ending the second session. -/
def c1i9 : Input := {quietInput with dt := 14, spawnDraw := 95}

/-- The first eight frames: one full session scoring 32, then Play again. -/
def c1Run1 : List Input := [c1i1, c1i2, c1i3, c1i4, c1i5, c1i6, c1i7, c1i8]

/-- The full nine frames: the second session ends with score 0. -/
def c1Run2 : List Input := c1Run1 ++ [c1i9]

/-- Score, level and high score never decrease from a to b. -/
def CounterMono (a b : Counters) : Prop :=
  a.score ≤ b.score ∧ a.level ≤ b.level ∧ a.hs ≤ b.hs

/-- The score grows and, when the high score dominated the score at the start,
the final high score is exactly the maximum of the initial high score and the
final score (and still dominates the final score). -/
def HsTracks (a b : Counters) : Prop :=
  a.score ≤ b.score ∧ (a.score ≤ a.hs → b.hs = max a.hs b.score ∧ b.score ≤ b.hs)

lemma collides_mark_left (b e : Shape) :
    Shape.collides_with {b with collided := true} e = b.collides_with e := rfl

lemma collides_mark_right (b e : Shape) :
    Shape.collides_with b {e with collided := true} = b.collides_with e := rfl

lemma hitCounters_mark (e : Shape) (c : Counters) :
    hitCounters {e with collided := true} c = hitCounters e c := rfl

lemma mark_idem (b : Shape) :
    ({({b with collided := true} : Shape) with collided := true} : Shape)
      = {b with collided := true} := rfl

/-- Closed form of the inner resolver loop: the enemy is marked exactly when
some bullet overlaps it, each overlapping bullet is marked, and the counters
are the fold of the hit update over the overlapping bullets in order. -/
lemma bulletScan_eq (e : Shape) (bs : List Shape) (c : Counters) :
    bulletScan e bs c =
      ( if bs.any (fun b => b.collides_with e) then {e with collided := true} else e,
        bs.map (fun b => if b.collides_with e then {b with collided := true} else b),
        bs.foldl (fun a b => if b.collides_with e then hitCounters e a else a) c ) := by
  induction bs generalizing e c with
  | nil => simp [bulletScan]
  | cons b bs ih =>
    by_cases hb : b.collides_with e = true
    · simp only [bulletScan, hb, if_true, ih, collides_mark_right, hitCounters_mark,
        mark_idem, List.any_cons, List.map_cons, List.foldl_cons, Bool.true_or, ite_self]
    · simp only [bulletScan, hb, Bool.false_eq_true, if_false, ih, List.any_cons,
        List.map_cons, List.foldl_cons, Bool.false_or]

lemma any_collides_markIf (bs : List Shape) (q : Shape → Bool) (e2 : Shape) :
    (bs.map (fun b => if q b then {b with collided := true} else b)).any
      (fun b => b.collides_with e2) = bs.any (fun b => b.collides_with e2) := by
  induction bs with
  | nil => rfl
  | cons b bs ih => by_cases h : q b <;> simp [h, ih, collides_mark_left]

lemma any_mark_arg (es : List Shape) (b : Shape) :
    (es.any fun e => Shape.collides_with {b with collided := true} e)
      = es.any fun e => b.collides_with e := by
  simp [collides_mark_left]

lemma foldl_hit_markIf (bs : List Shape) (q : Shape → Bool) (e2 : Shape) (acc : Counters) :
    (bs.map (fun b => if q b then {b with collided := true} else b)).foldl
      (fun a b => if b.collides_with e2 then hitCounters e2 a else a) acc
    = bs.foldl (fun a b => if b.collides_with e2 then hitCounters e2 a else a) acc := by
  induction bs generalizing acc with
  | nil => rfl
  | cons b bs ih => by_cases h : q b <;> simp [h, ih, collides_mark_left]

lemma map_mark_compose (bs : List Shape) (e : Shape) (es : List Shape) :
    (bs.map (fun b => if b.collides_with e then {b with collided := true} else b)).map
      (fun b => if es.any (fun e2 => b.collides_with e2) then {b with collided := true} else b)
    = bs.map (fun b => if (e :: es).any (fun e2 => b.collides_with e2)
        then {b with collided := true} else b) := by
  induction bs with
  | nil => rfl
  | cons b bs ih =>
    simp only [List.map_cons, List.any_cons]
    rw [ih]
    congr 1
    by_cases h : b.collides_with e = true
    · simp only [h, if_true, any_mark_arg, mark_idem, Bool.true_or, ite_self]
    · simp only [h, Bool.false_eq_true, if_false, Bool.false_or]

/-- Closed form of the whole resolver scan: each enemy ends marked exactly when
some bullet overlaps it, each bullet ends marked exactly when some enemy
overlaps it, and the counters are the nested fold of the hit update over the
overlapping pairs in scan order. -/
lemma enemyScan_eq (es bs : List Shape) (c : Counters) :
    enemyScan es bs c =
      ( es.map (fun e => if bs.any (fun b => b.collides_with e)
          then {e with collided := true} else e),
        bs.map (fun b => if es.any (fun e => b.collides_with e)
          then {b with collided := true} else b),
        es.foldl (fun acc e => bs.foldl
          (fun a b => if b.collides_with e then hitCounters e a else a) acc) c ) := by
  induction es generalizing bs c with
  | nil => simp [enemyScan]
  | cons e es ih =>
    simp only [enemyScan, bulletScan_eq, ih, List.map_cons, List.any_cons, List.foldl_cons,
      Prod.mk.injEq]
    refine ⟨?_, ?_, ?_⟩
    · simp only [any_collides_markIf]
    · rw [map_mark_compose]
      simp only [List.any_cons]
    · simp only [foldl_hit_markIf]

lemma bulletScan_nil (e : Shape) (c : Counters) : bulletScan e [] c = (e, [], c) := rfl

lemma enemyScan_nil_bullets (es : List Shape) (c : Counters) :
    enemyScan es [] c = (es, [], c) := by
  induction es generalizing c with
  | nil => rfl
  | cons e es ih => simp [enemyScan, bulletScan_nil, ih]

lemma hitCounters_score (e : Shape) (c : Counters) :
    (hitCounters e c).score = c.score + qRound e.size := rfl

lemma inner_score (e : Shape) (bs : List Shape) (c : Counters) :
    (bs.foldl (fun a b => if b.collides_with e then hitCounters e a else a) c).score
      = c.score + bs.countP (fun b => b.collides_with e) * qRound e.size := by
  induction bs generalizing c with
  | nil => simp
  | cons b bs ih =>
    by_cases h : b.collides_with e = true
    · simp only [List.foldl_cons, h, if_pos, ih, hitCounters_score, List.countP_cons, if_true]
      ring
    · simp only [List.foldl_cons, h, Bool.false_eq_true, if_false, ih, List.countP_cons]
      simp [h]

lemma outer_score (es bs : List Shape) (c : Counters) :
    (es.foldl (fun acc e => bs.foldl
        (fun a b => if b.collides_with e then hitCounters e a else a) acc) c).score
      = c.score + (es.map (fun e =>
          bs.countP (fun b => b.collides_with e) * qRound e.size)).sum := by
  induction es generalizing c with
  | nil => simp
  | cons e es ih =>
    simp only [List.foldl_cons, ih, inner_score, List.map_cons, List.sum_cons]
    ring

/-- Generic fold invariant: a reflexive transitive relation preserved by every
step of a left fold relates the seed to the result. -/
lemma foldl_rel {α β : Type} (R : α → α → Prop) (hrefl : ∀ a, R a a)
    (htrans : ∀ a b c2, R a b → R b c2 → R a c2) (f : α → β → α)
    (hstep : ∀ a x, R a (f a x)) : ∀ (l : List β) (c : α), R c (l.foldl f c) := by
  intro l
  induction l with
  | nil => intro c; exact hrefl c
  | cons x xs ih => intro c; exact htrans _ _ _ (hstep c x) (ih (f c x))

lemma counterMono_refl (a : Counters) : CounterMono a a :=
  ⟨le_refl _, le_refl _, le_refl _⟩

lemma counterMono_trans (a b c2 : Counters) (h1 : CounterMono a b) (h2 : CounterMono b c2) :
    CounterMono a c2 :=
  ⟨le_trans h1.1 h2.1, le_trans h1.2.1 h2.2.1, le_trans h1.2.2 h2.2.2⟩

lemma hitCounters_counterMono (e : Shape) (a : Counters) : CounterMono a (hitCounters e a) := by
  refine ⟨Nat.le_add_right _ _, ?_, le_max_left _ _⟩
  unfold hitCounters
  dsimp only
  split
  · exact le_of_lt (by assumption)
  · exact le_refl _

lemma scan_counters_mono (es bs : List Shape) (c : Counters) :
    CounterMono c (enemyScan es bs c).2.2 := by
  rw [enemyScan_eq]
  refine foldl_rel CounterMono counterMono_refl counterMono_trans _ ?_ es c
  intro a e
  refine foldl_rel CounterMono counterMono_refl counterMono_trans _ ?_ bs a
  intro a2 b
  by_cases h : b.collides_with e = true
  · simpa [h] using hitCounters_counterMono e a2
  · simpa [h] using counterMono_refl a2

lemma hsTracks_refl (a : Counters) : HsTracks a a :=
  ⟨le_refl _, fun h => ⟨(max_eq_left h).symm, h⟩⟩

lemma hsTracks_trans (a b c2 : Counters) (h1 : HsTracks a b) (h2 : HsTracks b c2) :
    HsTracks a c2 := by
  obtain ⟨hab, f⟩ := h1
  obtain ⟨hbc, g⟩ := h2
  refine ⟨le_trans hab hbc, fun ha => ?_⟩
  obtain ⟨hb1, hb2⟩ := f ha
  obtain ⟨hc1, hc2⟩ := g hb2
  refine ⟨?_, hc2⟩
  rw [hc1, hb1, max_assoc, max_eq_right hbc]

lemma hitCounters_hsTracks (e : Shape) (a : Counters) : HsTracks a (hitCounters e a) :=
  ⟨Nat.le_add_right _ _, fun _ => ⟨rfl, le_max_right _ _⟩⟩

lemma scan_hsTracks (es bs : List Shape) (c : Counters) :
    HsTracks c (enemyScan es bs c).2.2 := by
  rw [enemyScan_eq]
  refine foldl_rel HsTracks hsTracks_refl hsTracks_trans _ ?_ es c
  intro a e
  refine foldl_rel HsTracks hsTracks_refl hsTracks_trans _ ?_ bs a
  intro a2 b
  by_cases h : b.collides_with e = true
  · simpa [h] using hitCounters_hsTracks e a2
  · simpa [h] using hsTracks_refl a2

/-- With the invariant score <= high score at entry, the scan leaves the high
score equal to max of the old high score and the new score. -/
lemma scan_hs (es bs : List Shape) (c : Counters) (h : c.score ≤ c.hs) :
    (enemyScan es bs c).2.2.hs = max c.hs (enemyScan es bs c).2.2.score ∧
      (enemyScan es bs c).2.2.score ≤ (enemyScan es bs c).2.2.hs :=
  (scan_hsTracks es bs c).2 h

lemma step_playing (W H : ℚ) (s : GState) (i : Input) (h : s.gs = GameState.Playing) :
    step W H s i = playingFrame W H s i := by
  unfold step
  rw [h]

lemma step_mainMenu (W H : ℚ) (s : GState) (i : Input) (h : s.gs = GameState.MainMenu) :
    step W H s i = mainMenuFrame W H s i := by
  unfold step
  rw [h]

lemma step_paused (W H : ℚ) (s : GState) (i : Input) (h : s.gs = GameState.Paused) :
    step W H s i = pausedFrame s i := by
  unfold step
  rw [h]

lemma step_gameOver (W H : ℚ) (s : GState) (i : Input) (h : s.gs = GameState.GameOver) :
    step W H s i = gameOverFrame s i := by
  unfold step
  rw [h]

lemma mainMenuFrame_highScore (W H : ℚ) (s : GState) (i : Input) :
    (mainMenuFrame W H s i).highScore = s.highScore := by
  unfold mainMenuFrame
  by_cases hp : i.playClicked <;> by_cases hq : i.quitClicked <;> simp [hp, hq]

lemma mainMenuFrame_writes (W H : ℚ) (s : GState) (i : Input) :
    (mainMenuFrame W H s i).writes = s.writes := by
  unfold mainMenuFrame
  by_cases hp : i.playClicked <;> by_cases hq : i.quitClicked <;> simp [hp, hq]

lemma mainMenuFrame_score (W H : ℚ) (s : GState) (i : Input) :
    (mainMenuFrame W H s i).score = if i.playClicked then 0 else s.score := by
  unfold mainMenuFrame
  by_cases hp : i.playClicked <;> by_cases hq : i.quitClicked <;> simp [hp, hq]

lemma mainMenuFrame_level (W H : ℚ) (s : GState) (i : Input) :
    (mainMenuFrame W H s i).level = if i.playClicked then 1 else s.level := by
  unfold mainMenuFrame
  by_cases hp : i.playClicked <;> by_cases hq : i.quitClicked <;> simp [hp, hq]

lemma toNat_ten : (10 : ℤ).toNat = 10 := rfl

lemma toNat_thirtytwo : (32 : ℤ).toNat = 32 := rfl

/-- C5: in the resolver scan, an enemy ends marked collided exactly when some
bullet overlaps it and a bullet ends marked exactly when some enemy overlaps
it (so every overlapping bullet-enemy pair has both sides marked); the score
grows by round(enemy.size) for each overlapping pair, summed over the scan;
the level update takes score / 1000 + 1 only when it exceeds the current level
(that is, the maximum of the two); and concretely a score of 999 plus a hit on
an enemy of size 10 gives score 1009 and level 2. -/
theorem c5_resolver :
    (∀ (es bs : List Shape) (c : Counters),
      (enemyScan es bs c).1 = es.map (fun e => if bs.any (fun b => b.collides_with e)
          then {e with collided := true} else e) ∧
      (enemyScan es bs c).2.1 = bs.map (fun b => if es.any (fun e => b.collides_with e)
          then {b with collided := true} else b) ∧
      (enemyScan es bs c).2.2.score = c.score + (es.map (fun e =>
          bs.countP (fun b => b.collides_with e) * qRound e.size)).sum) ∧
    (∀ (e : Shape) (c : Counters),
      (hitCounters e c).level = max c.level ((c.score + qRound e.size) / 1000 + 1)) ∧
    ((enemyScan [⟨10, 1, 100, 100, false⟩] [⟨32, 400, 100, 100, false⟩]
        ⟨999, 1, 999, []⟩).2.2.score = 1009 ∧
      (enemyScan [⟨10, 1, 100, 100, false⟩] [⟨32, 400, 100, 100, false⟩]
        ⟨999, 1, 999, []⟩).2.2.level = 2) := by
  refine ⟨?_, ?_, ?_⟩
  · intro es bs c
    rw [enemyScan_eq]
    exact ⟨rfl, rfl, outer_score es bs c⟩
  · intro e c
    by_cases h : c.level < (c.score + qRound e.size) / 1000 + 1
    · simp [hitCounters, if_pos h, max_eq_right (le_of_lt h)]
    · simp [hitCounters, if_neg h, max_eq_left (Nat.le_of_not_lt h)]
  · constructor <;>
      norm_num [enemyScan, bulletScan, Shape.collides_with, Shape.rect, Rect.overlaps,
        hitCounters, qRound, round_eq, toNat_ten]

/-- C8 as stated: loading the persisted high score never fails: a missing slot
or unparsable content gives 0, and parsable content gives the parsed value,
which is the high score the process starts with. -/
theorem c8_load : ∀ (slot : Option String),
    (slot = none → loadHighScore slot = 0) ∧
    (∀ str, slot = some str →
      (parseU32 str = none → loadHighScore slot = 0) ∧
      (∀ v, parseU32 str = some v → loadHighScore slot = v)) ∧
    (∀ (W H : ℚ), (initState W H slot).highScore = loadHighScore slot) := by
  intro slot
  refine ⟨fun h => by rw [h]; rfl, fun str h => ?_, fun W H => rfl⟩
  subst h
  constructor
  · intro hp
    simp [loadHighScore, hp]
  · intro v hp
    simp [loadHighScore, hp]

/-- Witness for C8: unparsable content and a missing slot load as 0, and the
decimal text 777 loads as 777. -/
theorem c8_load_witness :
    loadHighScore (some ("12a")) = 0 ∧ loadHighScore none = 0 ∧
      loadHighScore (some ("777")) = 777 :=
  ⟨((c8_load (some ("12a"))).2.1 ("12a") rfl).1 (by decide),
    (c8_load none).1 rfl,
    ((c8_load (some ("777"))).2.1 ("777") rfl).2 777 (by decide)⟩

/-- C2 amended: the spawner appends exactly one enemy when the integer draw is
at least 95 and none otherwise, but the gen_range(0, 99) draw ranges over the
99 outcomes 0 through 98 (not 100 outcomes 0 through 99), making the per-frame
chance 4/99; a created enemy has size in [16, 64], speed in
[50 * (level / 2), 150 * (level / 2)], x in [size / 2, screen_width - size / 2],
y = -size and collided = false. -/
theorem c2_spawner : ∀ (W : ℚ) (s : GState) (i : Input), InputValid W s i →
    i.spawnDraw ≤ 98 ∧
    (i.spawnDraw < 95 → spawnEnemies s i = s.enemies) ∧
    (95 ≤ i.spawnDraw →
      spawnEnemies s i = s.enemies ++ [spawnedEnemy i] ∧
      16 ≤ (spawnedEnemy i).size ∧ (spawnedEnemy i).size ≤ 64 ∧
      50 * ((s.level : ℚ) / 2) ≤ (spawnedEnemy i).speed ∧
      (spawnedEnemy i).speed ≤ 150 * ((s.level : ℚ) / 2) ∧
      (spawnedEnemy i).size / 2 ≤ (spawnedEnemy i).x ∧
      (spawnedEnemy i).x ≤ W - (spawnedEnemy i).size / 2 ∧
      (spawnedEnemy i).y = -(spawnedEnemy i).size ∧
      (spawnedEnemy i).collided = false) := by
  intro W s i hv
  obtain ⟨hdt, h98, hs1, hs2, hp1, hp2, hx1, hx2⟩ := hv
  refine ⟨h98, fun h => ?_, fun h => ?_⟩
  · unfold spawnEnemies
    rw [if_neg (by omega)]
  · exact ⟨by unfold spawnEnemies; rw [if_pos h], hs1, hs2, hp1, hp2, hx1, hx2, rfl, rfl⟩

/-- Witness for C2: a valid draw of 95 appends exactly one enemy whose vertical
position is minus its size. -/
theorem c2_spawner_witness :
    c3Input.spawnDraw ≤ 98 ∧
    spawnEnemies cPlaying c3Input = cPlaying.enemies ++ [spawnedEnemy c3Input] ∧
    (spawnedEnemy c3Input).y = -(spawnedEnemy c3Input).size ∧
    (spawnedEnemy c3Input).collided = false := by
  have h := c2_spawner 800 cPlaying c3Input
    (by norm_num [InputValid, c3Input, quietInput, cPlaying, initState])
  exact ⟨h.1, (h.2.2 (by decide)).1, (h.2.2 (by decide)).2.2.2.2.2.2.2.1,
    (h.2.2 (by decide)).2.2.2.2.2.2.2.2⟩

/-- Counterexample for C2 as stated: the claimed 100th outcome, a draw of 99,
is outside the gen_range(0, 99) contract, while 98 is the largest valid draw. -/
theorem c2_counterexample :
    ¬ InputValid 800 cPlaying draw99Input ∧ InputValid 800 cPlaying draw98Input := by
  constructor
  · norm_num [InputValid, draw99Input, c3Input, quietInput, cPlaying, initState]
  · norm_num [InputValid, draw98Input, c3Input, quietInput, cPlaying, initState]

/-- C4 amended: immediately after the prune phase no remaining enemy or bullet
is marked collided; every remaining bullet satisfies y > -size / 2 (so it is
never fully above the screen); every remaining enemy satisfies
y < screen_height + size, which still allows an enemy to sit fully below the
visible band by up to size / 2 before it is removed. -/
theorem c4_prune : ∀ (H : ℚ) (es bs : List Shape),
    (∀ e ∈ pruneEnemies H es, e.collided = false ∧ e.y < H + e.size) ∧
    (∀ b ∈ pruneBullets bs, b.collided = false ∧ 0 - b.size / 2 < b.y) := by
  intro H es bs
  constructor
  · intro e he
    unfold pruneEnemies at he
    simp only [List.mem_filter, Bool.not_eq_true', decide_eq_true_eq] at he
    exact ⟨he.2, he.1.2⟩
  · intro b hb
    unfold pruneBullets at hb
    simp only [List.mem_filter, Bool.not_eq_true', decide_eq_true_eq] at hb
    exact ⟨hb.2, hb.1.2⟩

/-- Witness for C4: a retained enemy is unmarked and inside the retention band. -/
theorem c4_prune_witness :
    (⟨32, 1, 100, 10, false⟩ : Shape).collided = false ∧
      (⟨32, 1, 100, 10, false⟩ : Shape).y < 600 + (⟨32, 1, 100, 10, false⟩ : Shape).size :=
  (c4_prune 600 [⟨32, 1, 100, 10, false⟩] []).1 ⟨32, 1, 100, 10, false⟩
    (by norm_num [pruneEnemies])

/-- Counterexample for C4 as stated: an enemy of size 40 at y = 630 on a
600-high screen has its whole box below the screen (top edge 610 > 600), yet a
full Playing frame, prune phase included, retains it. -/
theorem c4_counterexample :
    (step 800 600 cE4state quietInput).enemies = [⟨40, 1, 100, 630, false⟩] ∧
      fullyOutsideBand 600 ⟨40, 1, 100, 630, false⟩ := by
  constructor
  · norm_num [step, cE4state, cPlaying, initState, quietInput, playingFrame, scanOf, hitOf,
      spawnEnemies, movedPlayer, firedBullets, clampPlayer, clamp, moveEnemy, moveBullet,
      pruneEnemies, pruneBullets, enemyScan, bulletScan, Shape.collides_with, Shape.rect,
      Rect.overlaps, hitCounters, qRound]
  · norm_num [fullyOutsideBand]

/-- C7 amended: in Paused, no input ever creates a bullet and every simulation
field is untouched; the only effect any input can have is the Space edge,
which is the fire binding but acts here as the resume command, moving the
state to Playing; with Space unpressed the frame is the identity. -/
theorem c7_paused_input : ∀ (W H : ℚ) (s : GState) (i : Input),
    s.gs = GameState.Paused →
    (step W H s i).bullets = s.bullets ∧
    (step W H s i).enemies = s.enemies ∧
    (step W H s i).explosions = s.explosions ∧
    (step W H s i).player = s.player ∧
    (step W H s i).score = s.score ∧
    (step W H s i).level = s.level ∧
    (step W H s i).highScore = s.highScore ∧
    (step W H s i).writes = s.writes ∧
    (step W H s i).gs = (if i.space then GameState.Playing else GameState.Paused) ∧
    (i.space = false → step W H s i = s) := by
  intro W H s i hgs
  rw [step_paused W H s i hgs]
  unfold pausedFrame
  cases hsp : i.space with
  | false => simp [hsp, hgs]
  | true => simp [hsp]

/-- Witness for C7: a paused frame with no input at all changes nothing. -/
theorem c7_paused_input_witness :
    (step 800 600 pausedState quietInput).bullets = pausedState.bullets ∧
    (step 800 600 pausedState quietInput).gs
      = (if quietInput.space then GameState.Playing else GameState.Paused) ∧
    step 800 600 pausedState quietInput = pausedState := by
  have h := c7_paused_input 800 600 pausedState quietInput rfl
  exact ⟨h.1, h.2.2.2.2.2.2.2.2.1, h.2.2.2.2.2.2.2.2.2 rfl⟩

/-- Counterexample for C7 as stated: pressing the fire key (Space) while
Paused creates no bullet, but the state does not remain Paused: it resumes to
Playing, because Space is also the resume binding. -/
theorem c7_counterexample :
    (step 800 600 pausedState fireInput).bullets = pausedState.bullets ∧
    (step 800 600 pausedState fireInput).gs = GameState.Playing ∧
    GameState.Playing ≠ GameState.Paused := by
  decide

/-- C10: while the state is Paused or GameOver a frame leaves every part of
the simulation state unchanged (entity and explosion collections, player,
direction modifier, score, level, high score, persisted writes); only the
game state itself may move, Paused to Playing or GameOver to MainMenu, on the
Space edge. -/
theorem c10_idle_frames : ∀ (W H : ℚ) (s : GState) (i : Input),
    (s.gs = GameState.Paused →
      (step W H s i).enemies = s.enemies ∧ (step W H s i).bullets = s.bullets ∧
      (step W H s i).explosions = s.explosions ∧ (step W H s i).player = s.player ∧
      (step W H s i).dirMod = s.dirMod ∧ (step W H s i).score = s.score ∧
      (step W H s i).level = s.level ∧ (step W H s i).highScore = s.highScore ∧
      (step W H s i).writes = s.writes ∧
      (step W H s i).gs = (if i.space then GameState.Playing else GameState.Paused)) ∧
    (s.gs = GameState.GameOver →
      (step W H s i).enemies = s.enemies ∧ (step W H s i).bullets = s.bullets ∧
      (step W H s i).explosions = s.explosions ∧ (step W H s i).player = s.player ∧
      (step W H s i).dirMod = s.dirMod ∧ (step W H s i).score = s.score ∧
      (step W H s i).level = s.level ∧ (step W H s i).highScore = s.highScore ∧
      (step W H s i).writes = s.writes ∧
      (step W H s i).gs = (if i.space then GameState.MainMenu else GameState.GameOver)) := by
  intro W H s i
  constructor
  · intro hgs
    rw [step_paused W H s i hgs]
    unfold pausedFrame
    cases hsp : i.space with
    | false => simp [hsp, hgs]
    | true => simp [hsp]
  · intro hgs
    rw [step_gameOver W H s i hgs]
    unfold gameOverFrame
    cases hsp : i.space with
    | false => simp [hsp, hgs]
    | true => simp [hsp]

/-- Witness for C10: acknowledging a game over moves to MainMenu and changes
nothing else. -/
theorem c10_idle_frames_witness :
    (step 800 600 goState fireInput).enemies = goState.enemies ∧
    (step 800 600 goState fireInput).highScore = goState.highScore ∧
    (step 800 600 goState fireInput).gs
      = (if fireInput.space then GameState.MainMenu else GameState.GameOver) := by
  have h := (c10_idle_frames 800 600 goState fireInput).2 rfl
  exact ⟨h.1, h.2.2.2.2.2.2.2.1, h.2.2.2.2.2.2.2.2.2⟩

lemma playingFrame_mono (W H : ℚ) (s : GState) (i : Input) :
    s.score ≤ (playingFrame W H s i).score ∧ s.level ≤ (playingFrame W H s i).level ∧
      s.highScore ≤ (playingFrame W H s i).highScore := by
  have h := scan_counters_mono
    (pruneEnemies H ((spawnEnemies s i).map (moveEnemy i.dt)))
    (pruneBullets ((firedBullets s.bullets (movedPlayer s i) i).map (moveBullet i.dt)))
    ⟨s.score, s.level, s.highScore, s.explosions.filter (fun x => x.emitting)⟩
  exact ⟨h.1, h.2.1, h.2.2⟩

/-- C6: the high score never decreases across any frame of the process; within
a session (any frame whose state is not MainMenu, since only the MainMenu Play
button resets the counters) the score and the level never decrease; and the
level starts at 1. -/
theorem c6_monotone : ∀ (W H : ℚ) (slot : Option String) (s : GState) (i : Input),
    s.highScore ≤ (step W H s i).highScore ∧
    (s.gs ≠ GameState.MainMenu →
      s.score ≤ (step W H s i).score ∧ s.level ≤ (step W H s i).level) ∧
    (initState W H slot).level = 1 := by
  intro W H slot s i
  refine ⟨?_, ?_, rfl⟩
  · cases hgs : s.gs with
    | MainMenu => rw [step_mainMenu W H s i hgs, mainMenuFrame_highScore]
    | Playing =>
      rw [step_playing W H s i hgs]
      exact (playingFrame_mono W H s i).2.2
    | Paused =>
      rw [step_paused W H s i hgs]
      unfold pausedFrame
      cases hsp : i.space <;> simp [hsp]
    | GameOver =>
      rw [step_gameOver W H s i hgs]
      unfold gameOverFrame
      cases hsp : i.space <;> simp [hsp]
  · intro hne
    cases hgs : s.gs with
    | MainMenu => exact absurd hgs hne
    | Playing =>
      rw [step_playing W H s i hgs]
      exact ⟨(playingFrame_mono W H s i).1, (playingFrame_mono W H s i).2.1⟩
    | Paused =>
      rw [step_paused W H s i hgs]
      unfold pausedFrame
      cases hsp : i.space <;> simp [hsp]
    | GameOver =>
      rw [step_gameOver W H s i hgs]
      unfold gameOverFrame
      cases hsp : i.space <;> simp [hsp]

/-- Witness for C6: a quiet Playing frame keeps all three counters. -/
theorem c6_monotone_witness :
    cPlaying.highScore ≤ (step 800 600 cPlaying quietInput).highScore ∧
    cPlaying.score ≤ (step 800 600 cPlaying quietInput).score ∧
    cPlaying.level ≤ (step 800 600 cPlaying quietInput).level ∧
    (initState 800 600 none).level = 1 := by
  have h := c6_monotone 800 600 none cPlaying quietInput
  exact ⟨h.1, (h.2.1 (by decide)).1, (h.2.1 (by decide)).2, h.2.2⟩

/-- C9: in every reachable state, and so at the end of every frame, the
in-memory high score is at least the score; consequently at the game-over
check the test score == high_score holds exactly when the score is at least
the in-memory high score. -/
theorem c9_hs_ge_score : ∀ (W H : ℚ) (slot : Option String) (s : GState),
    Reachable W H slot s →
    s.score ≤ s.highScore ∧ (s.score = s.highScore ↔ s.highScore ≤ s.score) := by
  intro W H slot s h
  have main : s.score ≤ s.highScore := by
    induction h with
    | init => exact Nat.zero_le _
    | next s i hr hv ih =>
      cases hgs : s.gs with
      | MainMenu =>
        rw [step_mainMenu W H s i hgs, mainMenuFrame_score, mainMenuFrame_highScore]
        by_cases hp : i.playClicked
        · simp [hp]
        · simpa [hp] using ih
      | Playing =>
        rw [step_playing W H s i hgs]
        have h2 := scan_hs
          (pruneEnemies H ((spawnEnemies s i).map (moveEnemy i.dt)))
          (pruneBullets ((firedBullets s.bullets (movedPlayer s i) i).map (moveBullet i.dt)))
          ⟨s.score, s.level, s.highScore, s.explosions.filter (fun x => x.emitting)⟩ ih
        exact h2.2
      | Paused =>
        rw [step_paused W H s i hgs]
        unfold pausedFrame
        cases hsp : i.space <;> simpa [hsp] using ih
      | GameOver =>
        rw [step_gameOver W H s i hgs]
        unfold gameOverFrame
        cases hsp : i.space <;> simpa [hsp] using ih
  exact ⟨main, fun he => le_of_eq he.symm, fun hle => le_antisymm main hle⟩

/-- Witness for C9: the initial state of a fresh process. -/
theorem c9_hs_ge_score_witness :
    (initState 800 600 none).score ≤ (initState 800 600 none).highScore ∧
    ((initState 800 600 none).score = (initState 800 600 none).highScore ↔
      (initState 800 600 none).highScore ≤ (initState 800 600 none).score) :=
  c9_hs_ge_score 800 600 none (initState 800 600 none) Reachable.init

/-- C1 amended: a frame writes to the persisted slot exactly when it is a
Playing frame that transitions to GameOver with the ending score at least the
in-memory high score held when the frame began (which equals the loaded value
only until some session of the same process beats it); the write is a single
append of the current high score, and frames in any other state never write. -/
theorem c1_persist : ∀ (W H : ℚ) (s : GState) (i : Input),
    (s.gs = GameState.Playing → s.score ≤ s.highScore →
      ((step W H s i).writes = s.writes ++ [(step W H s i).highScore] ∧
        (step W H s i).gs = GameState.GameOver ∧ s.highScore ≤ (step W H s i).score) ∨
      ((step W H s i).writes = s.writes ∧
        ¬((step W H s i).gs = GameState.GameOver ∧ s.highScore ≤ (step W H s i).score))) ∧
    (s.gs ≠ GameState.Playing → (step W H s i).writes = s.writes) := by
  intro W H s i
  constructor
  · intro hgs hinv
    rw [step_playing W H s i hgs]
    have hmax : (scanOf H s i).2.2.hs = max s.highScore (scanOf H s i).2.2.score :=
      (scan_hs (pruneEnemies H ((spawnEnemies s i).map (moveEnemy i.dt)))
        (pruneBullets ((firedBullets s.bullets (movedPlayer s i) i).map (moveBullet i.dt)))
        ⟨s.score, s.level, s.highScore, s.explosions.filter (fun x => x.emitting)⟩ hinv).1
    have hw : (playingFrame W H s i).writes
        = if hitOf W H s i then
            if (scanOf H s i).2.2.score = (scanOf H s i).2.2.hs
            then s.writes ++ [(scanOf H s i).2.2.hs] else s.writes
          else s.writes := rfl
    have hg : (playingFrame W H s i).gs
        = if hitOf W H s i then GameState.GameOver
          else if i.esc then GameState.Paused else GameState.Playing := rfl
    have hsc : (playingFrame W H s i).score = (scanOf H s i).2.2.score := rfl
    have hhs : (playingFrame W H s i).highScore = (scanOf H s i).2.2.hs := rfl
    rw [hw, hg, hsc, hhs]
    cases hhit : hitOf W H s i with
    | false =>
      right
      refine ⟨by simp, ?_⟩
      rintro ⟨hgo, -⟩
      cases hesc : i.esc <;> simp [hesc] at hgo
    | true =>
      by_cases heq : (scanOf H s i).2.2.score = (scanOf H s i).2.2.hs
      · left
        refine ⟨by simp [heq], by simp, ?_⟩
        have h3 : max s.highScore (scanOf H s i).2.2.score = (scanOf H s i).2.2.score := by
          rw [← hmax]
          exact heq.symm
        exact max_eq_right_iff.mp h3
      · right
        refine ⟨by simp [heq], ?_⟩
        rintro ⟨-, hle⟩
        exact heq ((hmax.trans (max_eq_right hle)).symm)
  · intro hne
    cases hgs : s.gs with
    | MainMenu => rw [step_mainMenu W H s i hgs, mainMenuFrame_writes]
    | Playing => exact absurd hgs hne
    | Paused =>
      rw [step_paused W H s i hgs]
      unfold pausedFrame
      cases hsp : i.space <;> simp [hsp]
    | GameOver =>
      rw [step_gameOver W H s i hgs]
      unfold gameOverFrame
      cases hsp : i.space <;> simp [hsp]

/-- Witness for C1: a quiet Playing frame with no enemy contact writes nothing
and does not end the session. -/
theorem c1_persist_witness :
    ((step 800 600 cPlaying quietInput).writes
        = cPlaying.writes ++ [(step 800 600 cPlaying quietInput).highScore] ∧
      (step 800 600 cPlaying quietInput).gs = GameState.GameOver ∧
      cPlaying.highScore ≤ (step 800 600 cPlaying quietInput).score) ∨
    ((step 800 600 cPlaying quietInput).writes = cPlaying.writes ∧
      ¬((step 800 600 cPlaying quietInput).gs = GameState.GameOver ∧
        cPlaying.highScore ≤ (step 800 600 cPlaying quietInput).score)) :=
  (c1_persist 800 600 cPlaying quietInput).1 rfl (Nat.zero_le _)

/-- Counterexample for C1 as stated: a concrete two-session process loaded
with high score 0.  The first session scores 32 and persists it at its
Playing to GameOver transition; the second session ends with score 0, which
ties the previously loaded high score 0, yet the transition writes nothing
(the write log stays the same), because the code compares against the
in-memory high score 32, not the loaded value. -/
theorem c1_counterexample :
    (runSteps 800 600 (initState 800 600 none) c1Run1).gs = GameState.Playing ∧
    (runSteps 800 600 (initState 800 600 none) c1Run2).gs = GameState.GameOver ∧
    (runSteps 800 600 (initState 800 600 none) c1Run2).score = 0 ∧
    loadHighScore none = 0 ∧
    (runSteps 800 600 (initState 800 600 none) c1Run2).writes
      = (runSteps 800 600 (initState 800 600 none) c1Run1).writes ∧
    validRun 800 600 (initState 800 600 none) c1Run2 = true := by
  norm_num [runSteps, validRun, InputValid, c1Run1, c1Run2, c1i1, c1i2, c1i3, c1i4, c1i5,
    c1i6, c1i7, c1i8, c1i9, quietInput, fireInput, initState, loadHighScore, step,
    playingFrame, mainMenuFrame, pausedFrame, gameOverFrame, scanOf, hitOf, spawnEnemies,
    spawnedEnemy, movedPlayer, newDirMod, firedBullets, clampPlayer, clamp, moveEnemy,
    moveBullet, pruneEnemies, pruneBullets, enemyScan, bulletScan, Shape.collides_with,
    Shape.rect, Rect.overlaps, hitCounters, qRound, round_eq, toNat_thirtytwo]

/-- C3 amended: within a Playing frame the spawner runs after the player key
handling but before the enemy and bullet movement, so a newly spawned enemy
does move during its spawn frame: with no bullets in flight and a successful
draw that stays inside the retention band after moving, the frame ends with
the new enemy last in the list at y = -size + speed * dt (not at y = -size). -/
theorem c3_order : ∀ (W H : ℚ) (s : GState) (i : Input),
    s.gs = GameState.Playing → s.bullets = [] → i.space = false → 95 ≤ i.spawnDraw →
    -i.sizeDraw + i.speedDraw * i.dt < H + i.sizeDraw →
    (step W H s i).enemies.getLast?
      = some ⟨i.sizeDraw, i.speedDraw, i.xDraw, -i.sizeDraw + i.speedDraw * i.dt, false⟩ := by
  intro W H s i hgs hbs hsp hdraw hband
  rw [step_playing W H s i hgs]
  have hb0 : firedBullets s.bullets (movedPlayer s i) i = [] := by
    unfold firedBullets
    simp [hsp, hbs]
  show (scanOf H s i).1.getLast? = _
  unfold scanOf
  rw [hb0]
  show (enemyScan (pruneEnemies H ((spawnEnemies s i).map (moveEnemy i.dt)))
      (pruneBullets []) _).1.getLast? = _
  rw [show pruneBullets [] = [] from rfl, enemyScan_nil_bullets]
  show (pruneEnemies H ((spawnEnemies s i).map (moveEnemy i.dt))).getLast? = _
  unfold spawnEnemies
  rw [if_pos hdraw, List.map_append]
  unfold pruneEnemies
  rw [List.filter_append]
  have hm : List.filter (fun e => decide (e.y < H + e.size))
      (List.map (moveEnemy i.dt) [spawnedEnemy i])
      = [moveEnemy i.dt (spawnedEnemy i)] := by
    simp only [List.map_cons, List.map_nil, List.filter_cons, List.filter_nil,
      decide_eq_true_eq]
    rw [if_pos]
    show (spawnedEnemy i).y + (spawnedEnemy i).speed * i.dt < H + (spawnedEnemy i).size
    exact hband
  rw [hm, List.filter_append]
  have hm2 : List.filter (fun e => !e.collided) [moveEnemy i.dt (spawnedEnemy i)]
      = [moveEnemy i.dt (spawnedEnemy i)] := by
    simp [moveEnemy, spawnedEnemy]
  rw [hm2, List.getLast?_concat]
  rfl

/-- Witness for C3: the concrete spawning frame at dt = 1 with speed draw 30
leaves the new enemy at -32 + 30. -/
theorem c3_order_witness :
    (step 800 600 cPlaying c3Input).enemies.getLast?
      = some ⟨32, 30, 100, -32 + 30 * 1, false⟩ :=
  c3_order 800 600 cPlaying c3Input rfl rfl rfl (by decide) (by norm_num [c3Input, quietInput])

/-- Counterexample for C3 as stated: in a Playing frame whose spawn draw
succeeds (dt = 1, size 32, speed 30), the frame ends with the new enemy at
y = -2, not at y = -size = -32: the spawner runs before the movement loop, so
the new enemy moves during its spawn frame. -/
theorem c3_counterexample :
    (step 800 600 cPlaying c3Input).enemies = [⟨32, 30, 100, -2, false⟩] ∧
    ¬((step 800 600 cPlaying c3Input).enemies = [⟨32, 30, 100, -32, false⟩]) ∧
    ¬((-2 : ℚ) = -32) := by
  refine ⟨?_, ?_, by norm_num⟩
  · norm_num [step, cPlaying, initState, c3Input, quietInput, playingFrame, scanOf, hitOf,
      spawnEnemies, spawnedEnemy, movedPlayer, firedBullets, clampPlayer, clamp, moveEnemy,
      moveBullet, pruneEnemies, pruneBullets, enemyScan, bulletScan, Shape.collides_with,
      Shape.rect, Rect.overlaps, hitCounters, qRound]
  · norm_num [step, cPlaying, initState, c3Input, quietInput, playingFrame, scanOf, hitOf,
      spawnEnemies, spawnedEnemy, movedPlayer, firedBullets, clampPlayer, clamp, moveEnemy,
      moveBullet, pruneEnemies, pruneBullets, enemyScan, bulletScan, Shape.collides_with,
      Shape.rect, Rect.overlaps, hitCounters, qRound]

end Game
